import Mathlib

/-!
Verification development for beanstalkdrs (src/main.rs)

A shallow embedding of the beanstalk-style job-queue server in
`src/main.rs`, together with theorems checking the natural-language
specification against it.

Modelling conventions:

* Byte slices (`&[u8]`, `Vec<u8>`) are `List Nat` of byte values.
* Rust `u8` arithmetic that can overflow is taken modulo 256 at the
  operation that overflows (release-mode wrapping semantics; in debug
  mode the same operation would abort the process, so either way the
  modelled point is where the 8-bit counter stops being monotonic).
* `HashMap<u8, Job>` is an association list `List (Nat × Job)`.  The
  list order stands for the iteration order of the map.  The `HashMap`
  iteration order is arbitrary and unspecified; the insertion order
  used by the concrete runs below is one admissible iteration order,
  and nothing in the source consults priorities, so no iteration order
  can restore a priority ordering.
* A Rust `panic!` / `.unwrap()` failure is modelled by `Option.none`:
  functions that can panic return an `Option`, and `none` marks the
  panic branch (the real function crashes the process there; it does
  not return a value).
-/

deriving instance DecidableEq for Except

/-- Bytes of an ASCII string literal, as a list of byte values. -/
def strBytes (s : String) : List Nat :=
  s.toList.map Char.toNat

/-- The `nom::is_alphanumeric` test on a byte: ASCII digit or letter. -/
def isAlnumByte (b : Nat) : Bool :=
  (48 ≤ b && b ≤ 57) || (65 ≤ b && b ≤ 90) || (97 ≤ b && b ≤ 122)

/-- The `nom::is_space` test on a byte: ASCII space or tab. -/
def isSpaceByte (b : Nat) : Bool :=
  b == 32 || b == 9

/-- The `nom::IResult` type specialised to byte-list input: `Done remaining output`,
`Incomplete` (more bytes needed), or `Error` (input does not match). -/
inductive IResult (α : Type) : Type where
  | Done : List Nat → α → IResult α
  | Incomplete : IResult α
  | Error : IResult α
deriving Repr, DecidableEq

/-- The `nom` combinator `tag!(t)` on `input`: if the input is shorter than the tag it is
`Incomplete` when it is a prefix of the tag and `Error` otherwise; if long
enough, it is `Done` exactly when the tag is a prefix of the input. -/
def tagP (t input : List Nat) : IResult (List Nat) :=
  if input.length < t.length then
    if List.take input.length t = input then IResult.Incomplete else IResult.Error
  else
    if List.take t.length input = t then IResult.Done (List.drop t.length input) t
    else IResult.Error

/-- The `nom::space` combinator: one or more space/tab bytes.  An empty input or an input
whose bytes are all spaces is `Done` with everything consumed (the result of
`beanstalk_request` below is insensitive to the end-of-input convention,
because a `tag!("\r\n")` always follows and reports `Incomplete` on an
exhausted window). -/
def spaceP (input : List Nat) : IResult (List Nat) :=
  if input.takeWhile isSpaceByte = [] ∧ input ≠ [] then IResult.Error
  else IResult.Done (input.dropWhile isSpaceByte) (input.takeWhile isSpaceByte)

/-- The `nom::alphanumeric` combinator: one or more ASCII alphanumeric bytes (same
end-of-input convention as `spaceP`). -/
def alphanumericP (input : List Nat) : IResult (List Nat) :=
  if input.takeWhile isAlnumByte = [] ∧ input ≠ [] then IResult.Error
  else IResult.Done (input.dropWhile isAlnumByte) (input.takeWhile isAlnumByte)

/-- The `opt!(f)` combinator: `Error` becomes `Done` with `none` and no input consumed;
`Incomplete` propagates. -/
def optP {α : Type} (f : List Nat → IResult α) (input : List Nat) :
    IResult (Option α) :=
  match f input with
  | IResult.Done rest o => IResult.Done rest (some o)
  | IResult.Incomplete => IResult.Incomplete
  | IResult.Error => IResult.Done input none

/-- The combinator `alt!(tag!("put") | tag!("reserve") | tag!("delete"))`: branches are
tried in order; an `Error` moves to the next branch, `Done` and `Incomplete`
return immediately. -/
def altCommand (input : List Nat) : IResult (List Nat) :=
  match tagP (strBytes ("put")) input with
  | IResult.Done rest o => IResult.Done rest o
  | IResult.Incomplete => IResult.Incomplete
  | IResult.Error =>
    match tagP (strBytes ("reserve")) input with
    | IResult.Done rest o => IResult.Done rest o
    | IResult.Incomplete => IResult.Incomplete
    | IResult.Error => tagP (strBytes ("delete")) input

/-- The `named!` parser `beanstalk_request` (src/main.rs lines 30-38):
`command := ("put"|"reserve"|"delete") opt(space) opt(alphanumeric) "\r\n"`,
yielding the command tag and the optional argument bytes. -/
def beanstalk_request (input : List Nat) :
    IResult (List Nat × Option (List Nat)) :=
  match altCommand input with
  | IResult.Incomplete => IResult.Incomplete
  | IResult.Error => IResult.Error
  | IResult.Done r1 cmd =>
    match optP spaceP r1 with
    | IResult.Incomplete => IResult.Incomplete
    | IResult.Error => IResult.Error
    | IResult.Done r2 _ =>
      match optP alphanumericP r2 with
      | IResult.Incomplete => IResult.Incomplete
      | IResult.Error => IResult.Error
      | IResult.Done r3 data =>
        match tagP (strBytes ("\r\n")) r3 with
        | IResult.Incomplete => IResult.Incomplete
        | IResult.Error => IResult.Error
        | IResult.Done r4 _ => IResult.Done r4 (cmd, data)

/-- The `enum ParseError` type (src/main.rs lines 11-19). -/
inductive ParseError : Type where
  | Incomplete : ParseError
  | BadProtocol : String → ParseError
  | InvalidArgument : ParseError
deriving Repr, DecidableEq

/-- The method `ParseError::is_incomplete` (src/main.rs lines 22-27). -/
def ParseError.is_incomplete : ParseError → Bool
  | ParseError.Incomplete => true
  | _ => false

/-- The `enum Command` type (src/main.rs lines 114-119). -/
inductive Command : Type where
  | Put : Command
  | Reserve : Command
  | Delete : Command
deriving Repr, DecidableEq

/-- The `struct Request` type (src/main.rs lines 121-125). -/
structure Request : Type where
  command : Command
  data : Option (List Nat)
deriving Repr, DecidableEq

/-- The tag-to-`Command` match inside `parse_nom` (src/main.rs lines 43-48);
`none` models the `panic!("unknown command")` arm (unreachable, since
`altCommand` only ever produces one of the three tags). -/
def commandOfTag (t : List Nat) : Option Command :=
  if t = strBytes ("put") then some Command.Put
  else if t = strBytes ("reserve") then some Command.Reserve
  else if t = strBytes ("delete") then some Command.Delete
  else none

/-- The function `parse_nom` (src/main.rs lines 40-57).  On success the reported consumed
length is `input.len()` — the length of the whole window, exactly as the
source writes it — not the length of the parsed frame.  The outer `none`
models the `panic!("unknown command")` branch. -/
def parse_nom (input : List Nat) :
    Option (Except ParseError (Request × Nat)) :=
  match beanstalk_request input with
  | IResult.Done _ o =>
    match commandOfTag o.1 with
    | some c => some (Except.ok (⟨c, o.2⟩, input.length))
    | none => none
  | IResult.Incomplete => some (Except.error ParseError.Incomplete)
  | IResult.Error => some (Except.error ParseError.InvalidArgument)

/-- The `struct Parser` type (src/main.rs lines 59-63): buffer, read cursor
(`position`) and write cursor (`written`). -/
structure Parser : Type where
  data : List Nat
  position : Nat
  written : Nat
deriving Repr, DecidableEq

/-- The constructor `Parser::new` (src/main.rs lines 66-72). -/
def Parser.new : Parser :=
  ⟨[], 0, 0⟩

/-- The readable window `&self.data[self.position..self.written]`. -/
def Parser.window (p : Parser) : List Nat :=
  (p.data.take p.written).drop p.position

/-- One socket read delivering `bytes` (the read/`written += len` step of
`Server::run`, src/main.rs lines 206-227): the bytes land at offset
`written` and the write cursor advances.  `Parser::allocate` only zero-fills
the buffer beyond `written`, which the window never exposes, so the
zero-padding is dropped here. -/
def Parser.feed (p : Parser) (bytes : List Nat) : Parser :=
  { p with data := p.data.take p.written ++ bytes,
           written := p.written + bytes.length }

/-- The method `Parser::is_incomplete` (src/main.rs lines 98-104); `none` models a
panic inside `parse_nom`. -/
def Parser.is_incomplete (p : Parser) : Option Bool :=
  (parse_nom p.window).map (fun r =>
    match r with
    | Except.ok _ => false
    | Except.error e => e.is_incomplete)

/-- The method `Parser::next` (src/main.rs lines 106-111): runs `parse_nom` on the
window and advances `position` by the reported consumed length. -/
def Parser.next (p : Parser) : Option (Except ParseError (Request × Parser)) :=
  (parse_nom p.window).map (fun r =>
    match r with
    | Except.ok (req, len) =>
        Except.ok (req, { p with position := p.position + len })
    | Except.error e => Except.error e)

/-- The `struct Job` type (src/main.rs lines 127-135).  All `u8` fields are byte
values; `data` is the payload byte vector. -/
structure Job : Type where
  id : Nat
  priority : Nat
  delay : Nat
  ttr : Nat
  data : List Nat
  deleted : Bool
  reserved : Bool
deriving Repr, DecidableEq

/-- The `HashMap::insert` operation on the association-list model: replace the entry with
this key if present, otherwise append a new entry. -/
def mapInsert : List (Nat × Job) → Nat → Job → List (Nat × Job)
  | [], k, v => [(k, v)]
  | p :: rest, k, v =>
    if p.1 = k then (k, v) :: rest else p :: mapInsert rest k v

/-- A `HashMap::get`-style lookup on the association-list model. -/
def mapLookup (m : List (Nat × Job)) (k : Nat) : Option Job :=
  (m.find? (fun p => p.1 == k)).map (fun p => p.2)

/-- The `struct Server` type (src/main.rs lines 137-142), minus the `TcpStream`
handle, which carries no queue state. -/
structure Server : Type where
  queue : List (Nat × Job)
  reserved_jobs : List (Nat × Job)
  auto_increment_index : Nat
deriving Repr, DecidableEq

/-- The constructor `Server::new` (src/main.rs lines 145-152): empty maps, counter 0. -/
def Server.new : Server :=
  ⟨[], [], 0⟩

/-- The method `Server::put` (src/main.rs lines 154-167): bump the 8-bit counter
(wrapping modulo 256), insert a fresh unreserved job under the new id, and
return that id. -/
def Server.put (s : Server) (pri delay ttr : Nat) (data : List Nat) :
    Nat × Server :=
  let idx := (s.auto_increment_index + 1) % 256
  (idx,
   { s with
       auto_increment_index := idx,
       queue := mapInsert s.queue idx ⟨idx, pri, delay, ttr, data, false, false⟩ })

/-- The method `Server::reserve` (src/main.rs lines 169-195): take the first entry of
the iteration order of the queue map whose `reserved` flag is clear, set that
flag on the queue record, and insert a second full copy of the job (payload
cloned, `reserved` back to `false`) into `reserved_jobs`; return the id and
a clone of the payload.  `none` models the `panic!("No more jobs!")` branch
taken when every job is reserved or the queue is empty — the Rust function
crashes the process there, it does not return. -/
def Server.reserve (s : Server) : Option ((Nat × List Nat) × Server) :=
  match s.queue.find? (fun p => !p.2.reserved) with
  | some (id, job) =>
    some ((id, job.data),
      { s with
          queue := mapInsert s.queue id { job with reserved := true },
          reserved_jobs := mapInsert s.reserved_jobs id
            ⟨job.id, job.priority, job.delay, job.ttr, job.data, false, false⟩ })
  | none => none

/-- The method `Server::delete` (src/main.rs lines 197-200): `self.queue.remove(id)` —
removes the entry from the queue map only (`reserved_jobs` is untouched) and
returns the removed job if one existed. -/
def Server.delete (s : Server) (id : Nat) : Option Job × Server :=
  (mapLookup s.queue id,
   { s with queue := s.queue.filter (fun p => p.1 ≠ id) })

/-- Rust `str::parse::<u8>` on the argument bytes: an optional leading `+`
sign followed by one or more ASCII digits, with the value required to fit in
8 bits; any other input fails.  (Checking the final value against 255 is
equivalent to the per-digit overflow check of Rust over the naturals, since
appending digits never decreases the value.)  `none` is a parse failure —
which `Server::run` turns into a `panic!` via `.unwrap()`. -/
def parseU8 (bytes : List Nat) : Option Nat :=
  let digits := match bytes with
    | 43 :: rest => rest
    | _ => bytes
  if digits = [] then none
  else if digits.all (fun b => 48 ≤ b && b ≤ 57) then
    let v := digits.foldl (fun acc b => acc * 10 + (b - 48)) 0
    if v ≤ 255 then some v else none
  else none

/-- The response lines `Server::run` writes back on the socket
(src/main.rs lines 241-263). -/
inductive Response : Type where
  | Inserted : Nat → Response
  | Reserved : Nat → List Nat → Response
  | Deleted : Response
  | NotFound : Response
deriving Repr, DecidableEq

/-- One dispatch step of the `match request.command` in `Server::run`
(src/main.rs lines 234-265): `Put` stores the argument bytes as the payload
with priority, delay and ttr all hard-coded to 1; `Reserve` calls
`Server::reserve`; `Delete` parses the argument as a `u8` id.  `none`
models a panic: `request.data.unwrap()` on a missing argument,
`parse::<u8>().unwrap()` on a non-numeric argument, or the
`panic!("No more jobs!")` inside `Server::reserve`. -/
def dispatch (s : Server) (r : Request) : Option (Response × Server) :=
  match r.command with
  | Command.Put =>
    match r.data with
    | none => none
    | some d =>
      let res := s.put 1 1 1 d
      some (Response.Inserted res.1, res.2)
  | Command.Reserve =>
    match s.reserve with
    | none => none
    | some ((id, d), s2) => some (Response.Reserved id d, s2)
  | Command.Delete =>
    match r.data with
    | none => none
    | some d =>
      match parseU8 d with
      | none => none
      | some id =>
        let res := s.delete id
        some (if (res.1).isSome then Response.Deleted else Response.NotFound,
              res.2)

/-- The request-processing loop of `Server::run` for one connection, over a
list of already-decoded requests: each request is dispatched against the
evolving store and its response recorded.  `none` models a panic during some
dispatch (a panic unwinds the whole process). -/
def runRequests (s : Server) : List Request → Option (List Response × Server)
  | [] => some ([], s)
  | r :: rs =>
    match dispatch s r with
    | none => none
    | some (resp, s2) =>
      (runRequests s2 rs).map (fun q => (resp :: q.1, q.2))

/-- The accept loop of `main` (src/main.rs lines 289-301): connections are
served strictly one after another, and **each connection gets a brand-new
`Server`** (`Server::new(stream)`), hence its own fresh queue, fresh
`reserved_jobs` map and fresh id counter.  No state is shared between
connections.  A panic while serving a connection kills the process, so later
connections are never served. -/
def serveConnections : List (List Request) → List (List Response × Server)
  | [] => []
  | reqs :: rest =>
    match runRequests Server.new reqs with
    | none => []
    | some r => r :: serveConnections rest

/-- The ids returned by `n` successive `Server::put` calls (priority, delay,
ttr and payload as hard-coded by the `Put` arm of `Server::run`). -/
def putIds : Nat → Server → List Nat
  | 0, _ => []
  | n + 1, s =>
    let r := s.put 1 1 1 []
    r.1 :: putIds n r.2

/-- Every job in the queue has priority, delay and ttr all equal to 1. -/
def allOnes (s : Server) : Bool :=
  s.queue.all (fun p => p.2.priority == 1 && p.2.delay == 1 && p.2.ttr == 1)

/-! ## Helper lemmas about the association-list map model -/

theorem mapLookup_insert (m : List (Nat × Job)) (k : Nat) (v : Job) :
    mapLookup (mapInsert m k v) k = some v := by
  induction m with
  | nil => simp [mapInsert, mapLookup]
  | cons p rest ih =>
    by_cases hp : p.1 = k
    · simp [mapInsert, hp, mapLookup]
    · simp only [mapInsert, if_neg hp]
      rw [mapLookup, List.find?_cons_of_neg]
      · exact ih
      · simp [hp]

theorem mapLookup_filter_ne (m : List (Nat × Job)) (k : Nat) :
    mapLookup (m.filter (fun p => p.1 ≠ k)) k = none := by
  have h : (m.filter (fun p => p.1 ≠ k)).find? (fun p => p.1 == k) = none := by
    rw [List.find?_eq_none]
    intro x hx
    have hne := (List.mem_filter.mp hx).2
    simp only [decide_eq_true_eq] at hne
    simp [hne]
  rw [mapLookup, h, Option.map_none']

theorem all_mapInsert (P : Nat × Job → Bool) (m : List (Nat × Job)) (k : Nat)
    (v : Job) (hm : m.all P = true) (hv : P (k, v) = true) :
    (mapInsert m k v).all P = true := by
  induction m with
  | nil => simp [mapInsert, hv]
  | cons p rest ih =>
    rw [List.all_cons, Bool.and_eq_true] at hm
    by_cases hp : p.1 = k
    · simp [mapInsert, hp, hv, hm.2]
    · simp [mapInsert, hp, hm.1, ih hm.2]

theorem all_filter_of_all (P Q : Nat × Job → Bool) (m : List (Nat × Job))
    (hm : m.all P = true) : (m.filter Q).all P = true := by
  rw [List.all_eq_true] at hm ⊢
  intro x hx
  exact hm x (List.mem_filter.mp hx).1

/-! ## Claim theorems -/

/-- C1: the claim says `reserve()` selects the Ready job with the lowest
priority value (ties by ascending id), so that after submitting jobs with
priorities `[5, 1, 3]` the first `reserve()` returns the id of the second job
(2).  The source instead takes the first unreserved entry of the queue
iteration order of the map and never consults `priority`: under the insertion
iteration order modelled here (one admissible order of the Rust
`HashMap`), the first `reserve()` after those three puts returns id 1 —
the priority-5 job — not id 2. -/
theorem C1_reserve_ignores_priority :
    ((((Server.new.put 5 1 1 [97]).2.put 1 1 1 [98]).2.put 3 1 1 [99]).2.reserve).map
        (fun r => r.1.1) = some 1 ∧
    mapLookup (((Server.new.put 5 1 1 [97]).2.put 1 1 1 [98]).2.put 3 1 1 [99]).2.queue 1 =
      some ⟨1, 5, 1, 1, [97], false, false⟩ ∧
    (1 : Nat) ≠ 2 := by
  refine ⟨by decide, by decide, by decide⟩

/-- C2: the claim says `reserve()` returns a non-fatal `None` when no job is
Ready.  In the source, whenever every queue entry has its `reserved` flag
set (in particular on an empty store), `Server::reserve` reaches
`panic!("No more jobs!")` — modelled by the `none` result — i.e. it crashes
the process instead of returning a no-job value. -/
theorem C2_reserve_panics_when_no_ready (s : Server)
    (h : s.queue.all (fun p => p.2.reserved) = true) :
    s.reserve = none := by
  unfold Server.reserve
  cases hf : s.queue.find? (fun p => !p.2.reserved) with
  | none => rfl
  | some pr =>
    have hmem := List.mem_of_find?_eq_some hf
    have hp := List.find?_some hf
    have hres := (List.all_eq_true.mp h) pr hmem
    rw [hres] at hp
    cases hp

/-- Witness for C2 at the concrete empty store: `Server::new` has no Ready
job, and `reserve` takes the panic branch there. -/
theorem C2_witness :
    Server.new.queue.all (fun p => p.2.reserved) = true ∧
    Server.new.reserve = none :=
  ⟨by decide, C2_reserve_panics_when_no_ready Server.new (by decide)⟩

/-- C4: the claim says a `delete` whose argument is alphanumeric but not a
non-negative integer (e.g. `delete abc\r\n`) yields an `Invalid` decode
result handled without crashing.  In the source the line decodes
*successfully* (the grammar accepts any alphanumeric argument), and the
`Delete` arm of `Server::run` then panics in
`str::from_utf8(..).unwrap().parse::<u8>().unwrap()` — the `none` result of
`dispatch` — crashing the process. -/
theorem C4_delete_nonnumeric_panics :
    parse_nom (strBytes ("delete abc\r\n")) =
      some (Except.ok (⟨Command.Delete, some (strBytes ("abc"))⟩, 12)) ∧
    dispatch Server.new ⟨Command.Delete, some (strBytes ("abc"))⟩ = none := by
  refine ⟨by decide, by decide⟩

/-- C8: feeding `put hel` and then `lo\r\n` as two separate reads yields
exactly one decoded `put` command with payload `hello`: after the first
chunk the parser reports incomplete (and `next` decodes nothing), after the
second chunk `next` decodes the single `put hello` command consuming the
whole 11-byte window, and the drained parser is again incomplete (no second
command). -/
theorem C8_parser_resumable :
    (Parser.new.feed (strBytes ("put hel"))).is_incomplete = some true ∧
    (Parser.new.feed (strBytes ("put hel"))).next =
      some (Except.error ParseError.Incomplete) ∧
    ((Parser.new.feed (strBytes ("put hel"))).feed (strBytes ("lo\r\n"))).next =
      some (Except.ok (⟨Command.Put, some (strBytes ("hello"))⟩,
        ⟨strBytes ("put hello\r\n"), 11, 11⟩)) ∧
    (⟨strBytes ("put hello\r\n"), 11, 11⟩ : Parser).is_incomplete = some true := by
  refine ⟨by decide, by decide, by decide, by decide⟩

/-- C3 counterexample: connection 1 submits a job (`INSERTED 1`), then
connection 2 issues `delete 1` — and gets `NOT FOUND`, because `main`
constructs a brand-new `Server` (hence a fresh, empty store) for the second
connection.  Under the claim, the job put on connection 1 would be
observable (deletable) from connection 2. -/
theorem C3_counterexample :
    serveConnections
        [[⟨Command.Put, some [97]⟩], [⟨Command.Delete, some [49]⟩]] =
      [([Response.Inserted 1],
        ⟨[(1, ⟨1, 1, 1, 1, [97], false, false⟩)], [], 1⟩),
       ([Response.NotFound], ⟨[], [], 0⟩)] := by
  decide

/-- C3 amended: connections are served strictly one after another, and every
connection is handled against its own freshly created `Server`: as long as
the earlier connections finished without a panic, the outcome of any
connection is exactly `runRequests Server.new` on its own requests,
independent of anything other connections did. -/
theorem C3_each_connection_fresh_store (pre post : List (List Request))
    (reqs : List Request) (r : List Response × Server)
    (hpre : ∀ l ∈ pre, (runRequests Server.new l).isSome)
    (h : runRequests Server.new reqs = some r) :
    (serveConnections (pre ++ reqs :: post))[pre.length]? = some r := by
  induction pre with
  | nil => simp [serveConnections, h]
  | cons hd tl ih =>
    have hhd := hpre hd (by simp)
    obtain ⟨v, hv⟩ := Option.isSome_iff_exists.mp hhd
    simp only [List.cons_append, serveConnections, hv, List.length_cons,
      List.getElem?_cons_succ]
    exact ih (fun l hl => hpre l (by simp [hl]))

/-- Witness for C3 at a single concrete connection: the first connection is
served from the fresh store. -/
theorem C3_witness :
    (serveConnections [[⟨Command.Put, some [97]⟩]])[0]? =
      some ([Response.Inserted 1],
        ⟨[(1, ⟨1, 1, 1, 1, [97], false, false⟩)], [], 1⟩) :=
  C3_each_connection_fresh_store [] [] [⟨Command.Put, some [97]⟩]
    ([Response.Inserted 1], ⟨[(1, ⟨1, 1, 1, 1, [97], false, false⟩)], [], 1⟩)
    (by simp) (by decide)

/-- C5 counterexample: the claim says `release <id>` is a recognized verb.
Decoding the concrete line `release 1\r\n` yields the `InvalidArgument`
decode error — the `alt!` of the grammar only knows `put`, `reserve` and
`delete` — so no release command (and no Reserved-to-Ready transition) can
ever be issued. -/
theorem C5_counterexample :
    parse_nom (strBytes ("release 1\r\n")) =
      some (Except.error ParseError.InvalidArgument) := by
  decide

/-- C5 amended: `release` is not a recognized verb — every input line
beginning with the bytes of `release` is rejected by the decoder with
`InvalidArgument` (upon which `Server::run` terminates the session), no
matter what follows; the store has no release operation at all. -/
theorem C5_release_never_recognized (rest : List Nat) :
    parse_nom (strBytes ("release") ++ rest) =
      some (Except.error ParseError.InvalidArgument) := by
  have h : strBytes ("release") ++ rest =
      114 :: 101 :: 108 :: 101 :: 97 :: 115 :: 101 :: rest := rfl
  have hput : strBytes ("put") = [112, 117, 116] := rfl
  have hres : strBytes ("reserve") = [114, 101, 115, 101, 114, 118, 101] := rfl
  have hdel : strBytes ("delete") = [100, 101, 108, 101, 116, 101] := rfl
  rw [h]
  simp only [parse_nom, beanstalk_request, altCommand, tagP, hput, hres, hdel]
  norm_num [List.take_succ_cons, List.length_cons]

/-- C6 counterexample: the claim says a successful decode of a window
holding one complete frame plus trailing bytes reports a consumed length
equal to the frame only.  The frame `put a\r\n` alone is 7 bytes, yet on
the window `put a\r\n` followed by `xx` the `parse_nom` of the source reports 9
bytes consumed — `input.len()`, the whole window — so the trailing `xx` is
thrown away rather than left for the next decode. -/
theorem C6_counterexample :
    parse_nom (strBytes ("put a\r\n")) =
      some (Except.ok (⟨Command.Put, some (strBytes ("a"))⟩, 7)) ∧
    parse_nom (strBytes ("put a\r\n") ++ strBytes ("xx")) =
      some (Except.ok (⟨Command.Put, some (strBytes ("a"))⟩, 9)) ∧
    (9 : Nat) ≠ 7 := by
  refine ⟨by decide, by decide, by decide⟩

/-- C6 amended: whenever `parse_nom` succeeds, the consumed length it
reports is the length of the *entire* input window (`input.len()` in the
source), not the length of the first frame; `Parser::next` therefore
advances `position` past any bytes that follow the first frame, discarding
them. -/
theorem C6_consumed_is_whole_window (input : List Nat) (r : Request) (n : Nat)
    (h : parse_nom input = some (Except.ok (r, n))) : n = input.length := by
  unfold parse_nom at h
  split at h
  · split at h
    · simp only [Option.some.injEq, Except.ok.injEq, Prod.mk.injEq] at h
      exact h.2.symm
    · cases h
  · simp at h
  · simp at h

/-- Witness for C6 at the concrete window `put a\r\nxx` (9 bytes). -/
theorem C6_witness :
    parse_nom (strBytes ("put a\r\nxx")) =
      some (Except.ok (⟨Command.Put, some (strBytes ("a"))⟩, 9)) ∧
    (9 : Nat) = (strBytes ("put a\r\nxx")).length :=
  ⟨by decide,
   C6_consumed_is_whole_window (strBytes ("put a\r\nxx"))
     ⟨Command.Put, some (strBytes ("a"))⟩ 9 (by decide)⟩

/-- The ids returned by successive puts are the successive values of the
8-bit counter: starting from `s`, the `k`-th id (0-based) is
`(auto_increment_index + 1 + k) % 256`. -/
theorem putIds_spec (n : Nat) : ∀ s : Server,
    putIds n s =
      (List.range n).map (fun k => (s.auto_increment_index + 1 + k) % 256) := by
  induction n with
  | zero => intro s; simp [putIds]
  | succ n ih =>
    intro s
    have hstep : putIds (n + 1) s = (s.auto_increment_index + 1) % 256 ::
        putIds n ((s.put 1 1 1 []).2) := rfl
    have hidx : ((s.put 1 1 1 []).2).auto_increment_index =
        (s.auto_increment_index + 1) % 256 := rfl
    have htail : List.map
        (fun k => ((s.auto_increment_index + 1) % 256 + 1 + k) % 256) (List.range n) =
        List.map ((fun k => (s.auto_increment_index + 1 + k) % 256) ∘ Nat.succ)
          (List.range n) := by
      apply List.map_congr_left
      intro a ha
      simp only [Function.comp_apply]
      omega
    rw [hstep, ih, hidx, htail, List.range_succ_eq_map, List.map_cons, List.map_map]

set_option maxRecDepth 10000 in
/-- C7 counterexample: the id counter is an 8-bit `auto_increment_index`,
so over 257 submissions on a fresh server the returned ids are
`1, …, 255, 0, 1`: the 256th id (index 255) is 0, smaller than the 255th
(255), and the 257th repeats the first — the sequence is neither strictly
increasing nor repeat-free. -/
theorem C7_counterexample :
    (putIds 257 Server.new)[0]? = some 1 ∧
    (putIds 257 Server.new)[254]? = some 255 ∧
    (putIds 257 Server.new)[255]? = some 0 ∧
    (putIds 257 Server.new)[256]? = some 1 ∧
    ¬ (putIds 257 Server.new).Pairwise (fun a b => a < b) ∧
    ¬ (putIds 257 Server.new).Nodup := by
  have h := putIds_spec 257 Server.new
  rw [h]
  decide

/-- C7 amended: ids do start at 1 and are strictly increasing without
repeats — but only for at most 255 submissions in a process lifetime: any
sequence of `n ≤ 255` puts on a fresh server returns exactly the ids
`1, 2, …, n`; the 8-bit counter wraps modulo 256 on the 256th put (in a
release build; a debug build aborts on the overflow instead). -/
theorem C7_ids_sequential_until_wrap (n : Nat) (h : n ≤ 255) :
    putIds n Server.new = (List.range n).map (fun k => k + 1) := by
  rw [putIds_spec]
  apply List.map_congr_left
  intro a ha
  have hlt : a < n := List.mem_range.mp ha
  show (Server.new.auto_increment_index + 1 + a) % 256 = a + 1
  have h0 : Server.new.auto_increment_index = 0 := rfl
  rw [h0]
  omega

/-- Witness for C7 at three puts: the returned ids are `[1, 2, 3]`. -/
theorem C7_witness :
    putIds 3 Server.new = (List.range 3).map (fun k => k + 1) :=
  C7_ids_sequential_until_wrap 3 (by decide)

/-- C9: after a successful `reserve()` returning id `id`, the store holds
two copies of the job — the canonical queue record with `reserved = true`,
and a second full copy (same id, priority, delay, ttr and a clone of the
payload) in `reserved_jobs` with `reserved = false` — and a subsequent
`delete(id)` removes only the queue copy, leaving the `reserved_jobs` copy
in place. -/
theorem C9_reserve_duplicates_job (s s2 : Server) (id : Nat) (d : List Nat)
    (h : s.reserve = some ((id, d), s2)) :
    (∃ j, mapLookup s2.queue id = some j ∧ j.reserved = true ∧ j.data = d ∧
      ∃ j2, mapLookup s2.reserved_jobs id = some j2 ∧ j2.reserved = false ∧
        j2.deleted = false ∧ j2.data = d ∧ j2.id = j.id ∧
        j2.priority = j.priority ∧ j2.delay = j.delay ∧ j2.ttr = j.ttr) ∧
    mapLookup ((s2.delete id).2).queue id = none ∧
    ((s2.delete id).2).reserved_jobs = s2.reserved_jobs := by
  unfold Server.reserve at h
  cases hf : s.queue.find? (fun p => !p.2.reserved) with
  | none => rw [hf] at h; cases h
  | some pr =>
    rw [hf] at h
    simp only [Option.some.injEq, Prod.mk.injEq] at h
    obtain ⟨⟨hid, hd⟩, hs2⟩ := h
    subst hid
    subst hd
    subst hs2
    refine ⟨⟨{ pr.2 with reserved := true }, mapLookup_insert _ _ _, rfl, rfl,
      ⟨pr.2.id, pr.2.priority, pr.2.delay, pr.2.ttr, pr.2.data, false, false⟩,
      mapLookup_insert _ _ _, rfl, rfl, rfl, rfl, rfl, rfl, rfl⟩,
      mapLookup_filter_ne _ _, rfl⟩

/-- Witness for C9: one put then one reserve on a fresh server.  The
resulting state holds the queue copy with `reserved = true` and the
`reserved_jobs` copy with `reserved = false`, and `delete 1` leaves the
`reserved_jobs` copy alone. -/
theorem C9_witness :
    ((Server.new.put 1 1 1 [97]).2.reserve =
      some ((1, [97]),
        ⟨[(1, ⟨1, 1, 1, 1, [97], false, true⟩)],
         [(1, ⟨1, 1, 1, 1, [97], false, false⟩)], 1⟩)) ∧
    ((∃ j,
        mapLookup (⟨[(1, ⟨1, 1, 1, 1, [97], false, true⟩)],
          [(1, ⟨1, 1, 1, 1, [97], false, false⟩)], 1⟩ : Server).queue 1 =
            some j ∧
        j.reserved = true ∧ j.data = [97] ∧
        ∃ j2,
          mapLookup (⟨[(1, ⟨1, 1, 1, 1, [97], false, true⟩)],
            [(1, ⟨1, 1, 1, 1, [97], false, false⟩)], 1⟩ : Server).reserved_jobs 1 =
              some j2 ∧
          j2.reserved = false ∧ j2.deleted = false ∧ j2.data = [97] ∧
          j2.id = j.id ∧ j2.priority = j.priority ∧ j2.delay = j.delay ∧
          j2.ttr = j.ttr) ∧
      mapLookup (((⟨[(1, ⟨1, 1, 1, 1, [97], false, true⟩)],
        [(1, ⟨1, 1, 1, 1, [97], false, false⟩)], 1⟩ : Server).delete 1).2).queue 1 =
          none ∧
      (((⟨[(1, ⟨1, 1, 1, 1, [97], false, true⟩)],
        [(1, ⟨1, 1, 1, 1, [97], false, false⟩)], 1⟩ : Server).delete 1).2).reserved_jobs =
        (⟨[(1, ⟨1, 1, 1, 1, [97], false, true⟩)],
          [(1, ⟨1, 1, 1, 1, [97], false, false⟩)], 1⟩ : Server).reserved_jobs) :=
  ⟨by decide,
   C9_reserve_duplicates_job (Server.new.put 1 1 1 [97]).2
     ⟨[(1, ⟨1, 1, 1, 1, [97], false, true⟩)],
      [(1, ⟨1, 1, 1, 1, [97], false, false⟩)], 1⟩ 1 [97] (by decide)⟩

/-- C10: every job created through the `put` command path of `Server::run`
is stored with priority = 1, delay = 1 and ttr = 1 — the hard-coded
`self.put(1, 1, 1, data)` call — and the wire argument is used only as the
payload.  Consequently, starting from the empty store, every job in the
queue always has those identical field values: the property holds of
`Server::new` and is preserved by dispatching any request. -/
theorem C10_put_hardcodes_fields :
    allOnes Server.new = true ∧
    (∀ (s : Server) (d : List Nat) (res : Response) (s2 : Server),
      dispatch s ⟨Command.Put, some d⟩ = some (res, s2) →
      res = Response.Inserted ((s.auto_increment_index + 1) % 256) ∧
      mapLookup s2.queue ((s.auto_increment_index + 1) % 256) =
        some ⟨(s.auto_increment_index + 1) % 256, 1, 1, 1, d, false, false⟩) ∧
    (∀ (s : Server) (r : Request) (res : Response) (s2 : Server),
      allOnes s = true → dispatch s r = some (res, s2) → allOnes s2 = true) := by
  refine ⟨rfl, ?_, ?_⟩
  · intro s d res s2 h
    simp only [dispatch, Option.some.injEq, Prod.mk.injEq] at h
    obtain ⟨hres, hs2⟩ := h
    subst hres
    subst hs2
    exact ⟨rfl, mapLookup_insert _ _ _⟩
  · intro s r res s2 hall h
    match hc : r.command, hd : r.data with
    | Command.Put, none =>
      rw [dispatch, hc, hd] at h
      cases h
    | Command.Put, some d =>
      rw [dispatch, hc, hd] at h
      simp only [Option.some.injEq, Prod.mk.injEq] at h
      obtain ⟨_, hs2⟩ := h
      subst hs2
      exact all_mapInsert _ _ _ _ hall rfl
    | Command.Reserve, _ =>
      rw [dispatch, hc] at h
      cases hr : s.reserve with
      | none => rw [hr] at h; cases h
      | some v =>
        rw [hr] at h
        obtain ⟨⟨id0, d0⟩, s3⟩ := v
        simp only [Option.some.injEq, Prod.mk.injEq] at h
        obtain ⟨_, hs2⟩ := h
        subst hs2
        unfold Server.reserve at hr
        cases hf : s.queue.find? (fun p => !p.2.reserved) with
        | none => rw [hf] at hr; cases hr
        | some pr =>
          rw [hf] at hr
          simp only [Option.some.injEq, Prod.mk.injEq] at hr
          obtain ⟨_, hs3⟩ := hr
          subst hs3
          have hmem := List.mem_of_find?_eq_some hf
          have hP := (List.all_eq_true.mp hall) pr hmem
          apply all_mapInsert _ _ _ _ hall
          simpa using hP
    | Command.Delete, none =>
      rw [dispatch, hc, hd] at h
      cases h
    | Command.Delete, some d =>
      rw [dispatch, hc, hd] at h
      simp only at h
      cases hp : parseU8 d with
      | none => rw [hp] at h; cases h
      | some id0 =>
        rw [hp] at h
        simp only [Option.some.injEq, Prod.mk.injEq] at h
        obtain ⟨_, hs2⟩ := h
        subst hs2
        exact all_filter_of_all _ _ _ hall

/-- Witness for C10: dispatching one `put` with payload `[97]` on the fresh
store yields a store whose every job has priority, delay and ttr 1. -/
theorem C10_witness :
    allOnes (⟨[(1, ⟨1, 1, 1, 1, [97], false, false⟩)], [], 1⟩ : Server) = true :=
  C10_put_hardcodes_fields.2.2 Server.new ⟨Command.Put, some [97]⟩
    (Response.Inserted 1)
    ⟨[(1, ⟨1, 1, 1, 1, [97], false, false⟩)], [], 1⟩
    (by decide) (by decide)
